import Mathlib

/-!
Verification development for the Hulu media-browsing UI.

We shallowly embed the pieces of the code that the specification talks
about:

* the typed display records from `src/utils/types.ts`;
* the catalog client / item normalizer from `src/api/Hulu.ts`
  (`fetchCollections`, `validateImage`, `constructImageUrl`,
  `transformDataToView`, `getCollections`, `getViews`);
* the navigation state machine of the `HuluCollections` component from
  `src/components/Collections/index.ts` (`handleKeyDown`,
  `updateSelectedRow`, `updateSelectedColumn`, `updateSelectedTile`,
  `getCollectionLength`, `getTilesLength`, the layout-toggle handler and
  `renderModal`), including the observable DOM side effects as an
  explicit effect trace.

Network and image-probe I/O is abstracted by oracles: a fetch result is
an `Except Unit (FetchResponse β)` (`Except.error` models a rejected
fetch, `FetchResponse.ok = false` a non-success HTTP status) and the
image probe is a function `String → Bool` saying whether a URL loads.
JavaScript property access on a possibly-absent object is modelled in
the `Except Unit` monad: each `match … | none => .error ()` step in
`transformBody` is a field read that throws a `TypeError` on
`undefined`, which the source catches in `transformDataToView`'s
`try/catch`.
-/

namespace HuluSpec

/-! ## Data model (src/utils/types.ts) -/

/-- `Branding` from types.ts: `{id, name, logo}` (the `| null` side is
represented as `Option Branding` at use sites). -/
structure Branding where
  id : String
  name : String
  logo : String
  deriving Repr, DecidableEq

/-- `View` from types.ts.  `date` holds the parsed premiere date; its
internal structure is irrelevant to every claim, so it is carried as the
string the `Date` was built from. -/
structure View where
  id : String
  actionText : String
  description : String
  title : String
  horizontalImage : String
  verticalImage : String
  branding : Option Branding
  rating : String
  genre : List String
  type : String
  date : String
  deriving Repr, DecidableEq

/-- `Collection` from types.ts; `views?` is optional in TS and `[]`
before the per-collection item fetch has populated it. -/
structure Collection where
  id : String
  title : String
  href : String
  theme : String
  views : List View
  deriving Repr, DecidableEq

/-! ## Raw API records (the shapes read by src/api/Hulu.ts)

Every nested object that the code dereferences is `Option`al: `none`
models a missing field, and dereferencing `none` raises the exception
that the source's `try/catch` swallows. -/

/-- The `image` object inside a tile: the code reads `.image.path`. -/
structure RawImage where
  path : String
  deriving Repr, DecidableEq

/-- `horizontal_tile` / `vertical_tile`: the code reads `.image`. -/
structure RawTile where
  image : Option RawImage
  deriving Repr, DecidableEq

/-- `data.visuals.artwork`. -/
structure RawArtwork where
  horizontal_tile : Option RawTile
  vertical_tile : Option RawTile
  deriving Repr, DecidableEq

/-- `data.visuals.primary_branding`. -/
structure RawBranding where
  id : String
  name : String
  deriving Repr, DecidableEq

/-- `data.visuals`. -/
structure RawVisuals where
  artwork : Option RawArtwork
  primary_branding : Option RawBranding
  action_text : String
  body : String
  headline : String
  deriving Repr, DecidableEq

/-- `entity_metadata.rating`: the code reads `.code`. -/
structure RawRating where
  code : String
  deriving Repr, DecidableEq

/-- `data.entity_metadata`. -/
structure RawMetadata where
  rating : Option RawRating
  genre_names : List String
  entity_type : String
  premiere_date : String
  deriving Repr, DecidableEq

/-- One raw item record as consumed by `transformDataToView`. -/
structure RawData where
  id : String
  visuals : Option RawVisuals
  entity_metadata : Option RawMetadata
  deriving Repr, DecidableEq

/-- One raw collection descriptor as returned by `fetchCollections`
(destructured as `{id, name, theme, href}` in `getCollections`). -/
structure RawCollection where
  id : String
  name : String
  theme : String
  href : String
  deriving Repr, DecidableEq

/-! ## Catalog client / item normalizer (src/api/Hulu.ts) -/

/-- The bundled logo asset imported at the top of Hulu.ts and attached
to every branding record. -/
def huluLogo : String := "hulu-logo.jpeg"

/-- `constructImageUrl` from Hulu.ts: appends size and format query
parameters.  The source's default arguments are `"800"`, `"600"`,
`"jpeg"`; callers here always pass them explicitly. -/
def constructImageUrl (url width height format : String) : String :=
  url ++ "&size=" ++ width ++ "x" ++ height ++ "&format=" ++ format

/-- `validateImage` from Hulu.ts: resolves to the URL when the image
loads and to `null` when it errors; `probe` is the image-load oracle. -/
def validateImage (probe : String → Bool) (url : String) : Option String :=
  if probe url then some url else none

/-- The body of `transformDataToView`, before the enclosing
`try/catch`: `Except.error ()` is a thrown exception, `Except.ok none`
is the explicit `return undefined` taken when an image probe fails.
Field dereferences follow the source order: horizontal probe, vertical
probe, image check, branding, then the returned object (whose
construction reads `entity_metadata.rating.code` and friends). -/
def transformBody (probe : String → Bool) (data : RawData) :
    Except Unit (Option View) :=
  match data.visuals with
  | none => .error ()
  | some visuals =>
    match visuals.artwork with
    | none => .error ()
    | some artwork =>
      match artwork.horizontal_tile with
      | none => .error ()
      | some htile =>
        match htile.image with
        | none => .error ()
        | some himage =>
          let horizontalImage := validateImage probe
            (constructImageUrl himage.path "800" "600" "jpeg")
          match artwork.vertical_tile with
          | none => .error ()
          | some vtile =>
            match vtile.image with
            | none => .error ()
            | some vimage =>
              let verticalImage := validateImage probe
                (constructImageUrl vimage.path "600" "800" "jpeg")
              match horizontalImage, verticalImage with
              | some h, some v =>
                match data.entity_metadata with
                | none => .error ()
                | some meta =>
                  match meta.rating with
                  | none => .error ()
                  | some rating =>
                    .ok (some
                      { id := data.id
                        actionText := visuals.action_text
                        description := visuals.body
                        title := visuals.headline
                        horizontalImage := h
                        verticalImage := v
                        branding := visuals.primary_branding.map
                          fun b => ⟨b.id, b.name, huluLogo⟩
                        rating := rating.code
                        genre := meta.genre_names
                        type := meta.entity_type
                        date := meta.premiere_date })
              | _, _ => .ok none

/-- `transformDataToView` from Hulu.ts: the `try/catch` turns any
exception into `undefined` (here `none`), so the function is total and
never propagates an error. -/
def transformDataToView (probe : String → Bool) (data : RawData) :
    Option View :=
  match transformBody probe data with
  | .ok v => v
  | .error _ => none

/-- The item pipeline of `getViews`:
`(await Promise.all(data.items.map(transformDataToView))).filter(Boolean)`. -/
def getViewsItems (probe : String → Bool) (items : List RawData) :
    List View :=
  (items.map (transformDataToView probe)).filterMap id

/-- An HTTP response: `ok` is `response.ok`, `body` the parsed JSON. -/
structure FetchResponse (β : Type) where
  ok : Bool
  body : β
  deriving Repr, DecidableEq

/-- Transport failure as the spec describes it: a rejected fetch
(network error) or a non-success HTTP status. -/
def fetchFailed : Except Unit (FetchResponse β) → Bool
  | .error _ => true
  | .ok r => !r.ok

/-- `fetchCollections` from Hulu.ts: throws on `!response.ok`, catches
every error and returns `[]`; on success returns the `components`
array of the body. -/
def fetchCollections (resp : Except Unit (FetchResponse (List RawCollection))) :
    List RawCollection :=
  match resp with
  | .error _ => []
  | .ok r => if r.ok then r.body else []

/-- `getCollections` from Hulu.ts: maps each raw descriptor to a
`Collection` skeleton (no views yet). -/
def getCollections (resp : Except Unit (FetchResponse (List RawCollection))) :
    List Collection :=
  (fetchCollections resp).map fun rc =>
    { id := rc.id, title := rc.name, href := rc.href, theme := rc.theme
      views := [] }

/-- `getViews` from Hulu.ts: throws on `!response.ok`, catches every
error and returns `[]`; on success runs the normalization pipeline on
`data.items`. -/
def getViews (resp : Except Unit (FetchResponse (List RawData)))
    (probe : String → Bool) : List View :=
  match resp with
  | .error _ => []
  | .ok r => if r.ok then getViewsItems probe r.body else []

/-- `fetchData` of the `HuluCollections` component: for each collection
skeleton (in order) fetch its views and push `{...collection, views}`.
`itemResp` gives the response of the fetch for a given `href`. -/
def fetchData (collResp : Except Unit (FetchResponse (List RawCollection)))
    (itemResp : String → Except Unit (FetchResponse (List RawData)))
    (probe : String → Bool) : List Collection :=
  (getCollections collResp).map fun c =>
    { c with views := getViews (itemResp c.href) probe }

/-! ## Navigation state machine (src/components/Collections/index.ts)

The component's mutable `this.state` plus the model-relevant DOM state:
`modalOpen` mirrors the `hulu-modal` element's `is-open` attribute and
`modalBound` the record whose fields `renderModal` last wrote onto it.
Observable DOM side effects are collected in an explicit trace so that
"no re-render / no attribute write / no scroll" claims can be stated. -/

/-- The six logical key inputs consumed by `handleKeyDown`, plus the
layout toggle handled separately by `toggleHandler`. -/
inductive Key
  | up
  | down
  | left
  | right
  | enter
  | escape
  deriving Repr, DecidableEq

/-- Observable DOM side effects of the component.
`setTileSelected` is the `is-selected` attribute write of
`updateSelectedTile` (whose `true` case also triggers the tile's
scroll adjustment); `openModal`/`closeModal` are the modal attribute
writes plus the grid-opacity change; `fullRender` is the full
`renderCollections` row replacement done by the layout toggle. -/
inductive Effect
  | setTileSelected (row col : Int) (sel : Bool)
  | openModal
  | closeModal
  | fullRender
  deriving Repr, DecidableEq

/-- The component state (`this.state` of `HuluCollections`, plus the
modal element's state). -/
structure CState where
  selectedRowIndex : Int
  selectedColumnIndex : Int
  selectedTile : Option View
  collections : List Collection
  isHorizontal : Bool
  modalOpen : Bool
  modalBound : Option View
  deriving Repr, DecidableEq

/-- JavaScript array indexing: `a[i]` is `undefined` for a negative or
out-of-range index. -/
def listGetI (l : List α) (i : Int) : Option α :=
  if 0 ≤ i then l.get? i.toNat else none

/-- The views of row `i`.  After every render the DOM children of
`#collection--i` are exactly one `hulu-tile` per view of collection
`i`, so this list also models `getCollectionElement(i).children`. -/
def viewsAt (s : CState) (i : Int) : List View :=
  ((listGetI s.collections i).map Collection.views).getD []

/-- `getCollectionLength`: `this.collectionsElement.length`, one
`.collection-container` per collection. -/
def getCollectionLength (s : CState) : Int :=
  s.collections.length

/-- `getTilesLength(rowIndex)`: the DOM child count of row `rowIndex`,
i.e. the number of views of that collection. -/
def getTilesLength (s : CState) (rowIndex : Int) : Int :=
  (viewsAt s rowIndex).length

/-- `updateSelectedTile(columnIndex, rowIndex, isSelected)`: looks up
the tile element at that position; when it exists, writes its
`is-selected` attribute and sets `state.selectedTile` to
`collections[rowIndex].views[columnIndex]`; when it does not exist
(`selectedTile` falsy), does nothing. -/
def updateSelectedTile (s : CState) (columnIndex rowIndex : Int)
    (isSelected : Bool) : CState × List Effect :=
  match listGetI (viewsAt s rowIndex) columnIndex with
  | some v =>
    ({ s with selectedTile := some v },
     [Effect.setTileSelected rowIndex columnIndex isSelected])
  | none => (s, [])

/-- `updateSelectedRow(newIndex)`: early-returns when `newIndex` equals
the current row; otherwise deselects the old tile, selects the tile at
`(selectedColumnIndex, newIndex)` and records the new row index. -/
def updateSelectedRow (s : CState) (newIndex : Int) : CState × List Effect :=
  if newIndex = s.selectedRowIndex then (s, [])
  else
    let d := updateSelectedTile s s.selectedColumnIndex s.selectedRowIndex false
    let e := updateSelectedTile d.1 s.selectedColumnIndex newIndex true
    ({ e.1 with selectedRowIndex := newIndex }, d.2 ++ e.2)

/-- `updateSelectedColumn(newIndex)`: early-returns when `newIndex`
equals the current column; otherwise deselects the old tile, selects
the tile at `(newIndex, selectedRowIndex)` and records the new column
index. -/
def updateSelectedColumn (s : CState) (newIndex : Int) : CState × List Effect :=
  if newIndex = s.selectedColumnIndex then (s, [])
  else
    let d := updateSelectedTile s s.selectedColumnIndex s.selectedRowIndex false
    let e := updateSelectedTile d.1 newIndex s.selectedRowIndex true
    ({ e.1 with selectedColumnIndex := newIndex }, d.2 ++ e.2)

/-- `handleKeyDown(event)`: when the modal is open and the key is not
Escape, returns without touching anything; otherwise dispatches on the
key.  Enter runs `renderModal` (binds the modal to
`state.selectedTile`, sets `is-open`, dims the grid); Escape closes the
modal and restores opacity. -/
def handleKeyDown (s : CState) (k : Key) : CState × List Effect :=
  if s.modalOpen ∧ k ≠ Key.escape then (s, [])
  else
    match k with
    | Key.up =>
      updateSelectedRow s (max 0 (s.selectedRowIndex - 1))
    | Key.down =>
      updateSelectedRow s
        (min (s.selectedRowIndex + 1) (getCollectionLength s - 1))
    | Key.left =>
      updateSelectedColumn s (max 0 (s.selectedColumnIndex - 1))
    | Key.right =>
      updateSelectedColumn s
        (min (s.selectedColumnIndex + 1)
          (getTilesLength s s.selectedRowIndex - 1))
    | Key.enter =>
      ({ s with modalOpen := true, modalBound := s.selectedTile },
       [Effect.openModal])
    | Key.escape =>
      ({ s with modalOpen := false }, [Effect.closeModal])

/-- The layout-toggle handler installed by `addEventListeners`: flips
`state.isHorizontal` and re-runs `renderCollections` (a full grid
re-render). -/
def toggleHandler (s : CState) : CState × List Effect :=
  ({ s with isHorizontal := !s.isHorizontal }, [Effect.fullRender])

/-- Feed a list of key events, accumulating the effect trace. -/
def runKeys (s : CState) : List Key → CState × List Effect
  | [] => (s, [])
  | k :: ks =>
    let p := handleKeyDown s k
    let q := runKeys p.1 ks
    (q.1, p.2 ++ q.2)

/-- The state right after `connectedCallback` finished loading `cols`:
cursor `(0,0)`, horizontal layout, modal closed, and
`selectedTile = collections[0].views[0]` (which is `undefined`, i.e.
`none`, when the catalog or its first row is empty). -/
def initState (cols : List Collection) : CState :=
  { selectedRowIndex := 0
    selectedColumnIndex := 0
    selectedTile := (cols.get? 0).bind fun c => c.views.get? 0
    collections := cols
    isHorizontal := true
    modalOpen := false
    modalBound := none }

/-- The item the renderer designates as selected: the view at the
cursor position, when one exists. -/
def selectedItem (s : CState) : Option View :=
  (listGetI s.collections s.selectedRowIndex).bind fun c =>
    listGetI c.views s.selectedColumnIndex

/-- The largest row length of the catalog. -/
def maxRowLen (cols : List Collection) : Nat :=
  cols.foldr (fun c m => max c.views.length m) 0

/-! ## Characterizations used by the claims -/

/-- The horizontal image path, when every field on the access chain
`data.visuals.artwork.horizontal_tile.image.path` is present. -/
def hPath (d : RawData) : Option String :=
  (((d.visuals.bind RawVisuals.artwork).bind
      RawArtwork.horizontal_tile).bind RawTile.image).map RawImage.path

/-- The vertical image path, when every field on the access chain
`data.visuals.artwork.vertical_tile.image.path` is present. -/
def vPath (d : RawData) : Option String :=
  (((d.visuals.bind RawVisuals.artwork).bind
      RawArtwork.vertical_tile).bind RawTile.image).map RawImage.path

/-- The rating code, when `entity_metadata.rating` is present. -/
def ratingCode (d : RawData) : Option String :=
  (d.entity_metadata.bind RawMetadata.rating).map RawRating.code

/-- The probed horizontal-variant URL for a path. -/
def hProbeUrl (p : String) : String := constructImageUrl p "800" "600" "jpeg"

/-- The probed vertical-variant URL for a path. -/
def vProbeUrl (p : String) : String := constructImageUrl p "600" "800" "jpeg"

/-- A raw item is defective (gets dropped by the normalizer) iff: a
field on either image access chain is missing (a thrown exception),
either image probe fails (the explicit `return undefined`), or — once
both probes succeed — the metadata accessed while building the result
is missing (a thrown exception). -/
def rawDefective (probe : String → Bool) (d : RawData) : Bool :=
  match hPath d, vPath d with
  | some hp, some vp =>
    if !probe (hProbeUrl hp) || !probe (vProbeUrl vp) then true
    else (ratingCode d).isNone
  | _, _ => true

/-- The cursor bound that actually holds: the row index addresses a
collection, and the column index is nonnegative and below the longest
row of the catalog (it may exceed the *current* row's length after an
Up/Down that preserves a stale column). -/
def cursorInv (cols : List Collection) (s : CState) : Prop :=
  s.collections = cols ∧
  0 ≤ s.selectedRowIndex ∧ s.selectedRowIndex < (cols.length : Int) ∧
  0 ≤ s.selectedColumnIndex ∧
  s.selectedColumnIndex < (maxRowLen cols : Int)

/-- JavaScript `Array.prototype.join(sep)`. -/
def joinSep (sep : String) : List String → String
  | [] => ""
  | [x] => x
  | x :: y :: xs => x ++ sep ++ joinSep sep (y :: xs)

/-- The genre summary `renderTile` puts on a tile:
`tile.genre.slice(0, 2).join(" ● ")`. -/
def tileGenreSummary (v : View) : String :=
  joinSep " ● " (v.genre.take 2)

/-- The genre summary `renderModal` binds to the overlay:
`selectedTile.genre.join(" ● ")`. -/
def modalGenreSummary (v : View) : String :=
  joinSep " ● " v.genre

/-! ## Concrete fixtures for witnesses and counterexamples -/

/-- A display record with a given id and genre list; the other fields
are irrelevant to the navigation claims. -/
def mkView (i : String) (gs : List String) : View :=
  { id := i, actionText := "Watch", description := "d", title := i
    horizontalImage := "h.jpg", verticalImage := "v.jpg", branding := none
    rating := "TV-14", genre := gs, type := "series", date := "2020-01-01" }

/-- The spec's scenario catalog: two collections of sizes 3 and 1. -/
def cols2 : List Collection :=
  [ { id := "c0", title := "First", href := "/c0", theme := "t"
      views := [mkView "a" [], mkView "b" [], mkView "c" []] },
    { id := "c1", title := "Second", href := "/c1", theme := "t"
      views := [mkView "d" []] } ]

/-- A state with the overlay open, for the gating witness. -/
def openSt : CState :=
  { initState cols2 with modalOpen := true }

/-- The state reached from the scenario catalog by Right, Right:
cursor `(0,2)` with `selectedTile` the third view of row 0. -/
def atCol2 : CState :=
  (runKeys (initState cols2) [Key.right, Key.right]).1

/-- An image probe that accepts every URL. -/
def probeAll : String → Bool := fun _ => true

/-- A fully populated raw item record. -/
def goodRaw : RawData :=
  { id := "i1"
    visuals := some
      { artwork := some
          { horizontal_tile := some ⟨some ⟨"hp"⟩⟩
            vertical_tile := some ⟨some ⟨"vp"⟩⟩ }
        primary_branding := some ⟨"b1", "Brand"⟩
        action_text := "Watch"
        body := "body"
        headline := "Head" }
    entity_metadata := some
      { rating := some ⟨"PG"⟩
        genre_names := ["g1", "g2", "g3"]
        entity_type := "movie"
        premiere_date := "2020-05-01" } }

/-- The normalizer's output on `goodRaw` under `probeAll`. -/
def goodView : View :=
  { id := "i1"
    actionText := "Watch"
    description := "body"
    title := "Head"
    horizontalImage := "hp&size=800x600&format=jpeg"
    verticalImage := "vp&size=600x800&format=jpeg"
    branding := some { id := "b1", name := "Brand", logo := "hulu-logo.jpeg" }
    rating := "PG"
    genre := ["g1", "g2", "g3"]
    type := "movie"
    date := "2020-05-01" }

/-- An HTTP 500-style response carrying a body that must be ignored. -/
def resp500C : Except Unit (FetchResponse (List RawCollection)) :=
  .ok ⟨false, [⟨"c0", "News", "t", "/c0"⟩]⟩

/-- A rejected item fetch (network error). -/
def respErrV : Except Unit (FetchResponse (List RawData)) :=
  .error ()

/-- A successful collection-list response with one descriptor. -/
def okCollResp : Except Unit (FetchResponse (List RawCollection)) :=
  .ok ⟨true, [⟨"c0", "News", "t", "/c0"⟩]⟩

/-- An item oracle whose every fetch fails. -/
def itemRespFail : String → Except Unit (FetchResponse (List RawData)) :=
  fun _ => .error ()

/-- The skeleton `getCollections okCollResp` produces. -/
def skel0 : Collection :=
  { id := "c0", title := "News", href := "/c0", theme := "t", views := [] }

/-! ## Helper lemmas about the state machine -/

theorem ust_fields (s : CState) (c r : Int) (b : Bool) :
    (updateSelectedTile s c r b).1.selectedRowIndex = s.selectedRowIndex ∧
    (updateSelectedTile s c r b).1.selectedColumnIndex = s.selectedColumnIndex ∧
    (updateSelectedTile s c r b).1.collections = s.collections ∧
    (updateSelectedTile s c r b).1.isHorizontal = s.isHorizontal ∧
    (updateSelectedTile s c r b).1.modalOpen = s.modalOpen ∧
    (updateSelectedTile s c r b).1.modalBound = s.modalBound := by
  unfold updateSelectedTile
  cases listGetI (viewsAt s r) c <;> simp

theorem usr_row (s : CState) (t : Int) :
    (updateSelectedRow s t).1.selectedRowIndex = t := by
  unfold updateSelectedRow
  split
  · next h => simpa using h.symm
  · simp

theorem usr_fields (s : CState) (t : Int) :
    (updateSelectedRow s t).1.selectedColumnIndex = s.selectedColumnIndex ∧
    (updateSelectedRow s t).1.collections = s.collections ∧
    (updateSelectedRow s t).1.isHorizontal = s.isHorizontal ∧
    (updateSelectedRow s t).1.modalOpen = s.modalOpen ∧
    (updateSelectedRow s t).1.modalBound = s.modalBound := by
  unfold updateSelectedRow
  split
  · simp
  · have h1 := ust_fields s s.selectedColumnIndex s.selectedRowIndex false
    have h2 := ust_fields
      (updateSelectedTile s s.selectedColumnIndex s.selectedRowIndex false).1
      s.selectedColumnIndex t true
    simp only [] at h1 h2 ⊢
    refine ⟨?_, ?_, ?_, ?_, ?_⟩ <;> simp [h1.1, h1.2.1, h1.2.2.1, h1.2.2.2.1,
      h1.2.2.2.2, h2.1, h2.2.1, h2.2.2.1, h2.2.2.2.1, h2.2.2.2.2]

theorem usc_col (s : CState) (t : Int) :
    (updateSelectedColumn s t).1.selectedColumnIndex = t := by
  unfold updateSelectedColumn
  split
  · next h => simpa using h.symm
  · simp

theorem usc_fields (s : CState) (t : Int) :
    (updateSelectedColumn s t).1.selectedRowIndex = s.selectedRowIndex ∧
    (updateSelectedColumn s t).1.collections = s.collections ∧
    (updateSelectedColumn s t).1.isHorizontal = s.isHorizontal ∧
    (updateSelectedColumn s t).1.modalOpen = s.modalOpen ∧
    (updateSelectedColumn s t).1.modalBound = s.modalBound := by
  unfold updateSelectedColumn
  split
  · simp
  · have h1 := ust_fields s s.selectedColumnIndex s.selectedRowIndex false
    have h2 := ust_fields
      (updateSelectedTile s s.selectedColumnIndex s.selectedRowIndex false).1
      t s.selectedRowIndex true
    refine ⟨?_, ?_, ?_, ?_, ?_⟩ <;> simp [h1.1, h1.2.1, h1.2.2.1, h1.2.2.2.1,
      h1.2.2.2.2, h2.1, h2.2.1, h2.2.2.1, h2.2.2.2.1, h2.2.2.2.2]

theorem hk_up (s : CState) (h : s.modalOpen = false) :
    handleKeyDown s Key.up =
      updateSelectedRow s (max 0 (s.selectedRowIndex - 1)) := by
  simp [handleKeyDown, h]

theorem hk_down (s : CState) (h : s.modalOpen = false) :
    handleKeyDown s Key.down =
      updateSelectedRow s
        (min (s.selectedRowIndex + 1) (getCollectionLength s - 1)) := by
  simp [handleKeyDown, h]

theorem hk_left (s : CState) (h : s.modalOpen = false) :
    handleKeyDown s Key.left =
      updateSelectedColumn s (max 0 (s.selectedColumnIndex - 1)) := by
  simp [handleKeyDown, h]

theorem hk_right (s : CState) (h : s.modalOpen = false) :
    handleKeyDown s Key.right =
      updateSelectedColumn s
        (min (s.selectedColumnIndex + 1)
          (getTilesLength s s.selectedRowIndex - 1)) := by
  simp [handleKeyDown, h]

theorem hk_collections (s : CState) (k : Key) :
    (handleKeyDown s k).1.collections = s.collections := by
  unfold handleKeyDown
  split
  · simp
  · cases k <;> simp [(usr_fields _ _).2.1, (usc_fields _ _).2.1]

theorem listGetI_mem {l : List α} {i : Int} {a : α}
    (h : listGetI l i = some a) : a ∈ l := by
  unfold listGetI at h
  split at h
  · exact List.get?_mem h
  · cases h

theorem listGetI_isSome {l : List α} {i : Int}
    (h0 : 0 ≤ i) (h1 : i < (l.length : Int)) :
    ∃ a, listGetI l i = some a := by
  unfold listGetI
  rw [if_pos h0]
  have hlt : i.toNat < l.length := by omega
  exact ⟨l.get ⟨i.toNat, hlt⟩, List.get?_eq_get hlt⟩

theorem views_le_maxRowLen {cols : List Collection} {c : Collection}
    (h : c ∈ cols) : c.views.length ≤ maxRowLen cols := by
  induction cols with
  | nil => cases h
  | cons d ds ih =>
    rcases List.mem_cons.mp h with rfl | h2
    · exact le_max_left _ _
    · exact le_trans (ih h2) (le_max_right _ _)

theorem viewsAt_row {cols : List Collection} {s : CState} {i : Int}
    {c : Collection} (hc : s.collections = cols)
    (h : listGetI cols i = some c) : viewsAt s i = c.views := by
  unfold viewsAt
  rw [hc, h]
  rfl

theorem cursorInv_step {cols : List Collection} {s : CState} (k : Key)
    (hne : cols ≠ []) (hrows : ∀ c ∈ cols, c.views ≠ [])
    (hinv : cursorInv cols s) : cursorInv cols (handleKeyDown s k).1 := by
  obtain ⟨hcols, hr0, hr1, hc0, hc1⟩ := hinv
  have hlen : 1 ≤ cols.length := by
    cases cols with
    | nil => exact absurd rfl hne
    | cons a l => simp
  rcases hmo : s.modalOpen with _ | _
  · cases k with
    | up =>
      rw [hk_up s hmo]
      have hf := usr_fields s (max 0 (s.selectedRowIndex - 1))
      refine ⟨by rw [hf.2.1, hcols], ?_⟩
      rw [usr_row, hf.1]
      omega
    | down =>
      rw [hk_down s hmo]
      have hf := usr_fields s
        (min (s.selectedRowIndex + 1) (getCollectionLength s - 1))
      refine ⟨by rw [hf.2.1, hcols], ?_⟩
      rw [usr_row, hf.1]
      unfold getCollectionLength
      rw [hcols]
      omega
    | left =>
      rw [hk_left s hmo]
      have hf := usc_fields s (max 0 (s.selectedColumnIndex - 1))
      refine ⟨by rw [hf.2.1, hcols], ?_⟩
      rw [usc_col, hf.1]
      omega
    | right =>
      rw [hk_right s hmo]
      have hf := usc_fields s
        (min (s.selectedColumnIndex + 1)
          (getTilesLength s s.selectedRowIndex - 1))
      refine ⟨by rw [hf.2.1, hcols], ?_⟩
      rw [usc_col, hf.1]
      obtain ⟨c, hc⟩ := listGetI_isSome (l := cols) hr0 hr1
      have hv : viewsAt s s.selectedRowIndex = c.views := viewsAt_row hcols hc
      have hmem : c ∈ cols := listGetI_mem hc
      have hvne : c.views ≠ [] := hrows c hmem
      have hge : 1 ≤ c.views.length := by
        cases hcv : c.views with
        | nil => exact absurd hcv hvne
        | cons a l => simp
      have hle : c.views.length ≤ maxRowLen cols := views_le_maxRowLen hmem
      unfold getTilesLength
      rw [hv]
      omega
    | enter => simp [handleKeyDown, hmo]; exact ⟨hcols, hr0, hr1, hc0, hc1⟩
    | escape => simp [handleKeyDown, hmo]; exact ⟨hcols, hr0, hr1, hc0, hc1⟩
  · by_cases hk : k = Key.escape
    · subst hk
      simp [handleKeyDown, hmo]
      exact ⟨hcols, hr0, hr1, hc0, hc1⟩
    · simp [handleKeyDown, hmo, hk]
      exact ⟨hcols, hr0, hr1, hc0, hc1⟩

theorem cursorInv_runKeys {cols : List Collection} {s : CState}
    (ks : List Key) (hne : cols ≠ [])
    (hrows : ∀ c ∈ cols, c.views ≠ [])
    (hinv : cursorInv cols s) : cursorInv cols (runKeys s ks).1 := by
  induction ks generalizing s with
  | nil => exact hinv
  | cons k ks ih =>
    exact ih (cursorInv_step k hne hrows hinv)

theorem cursorInv_init {cols : List Collection} (hne : cols ≠ [])
    (hrows : ∀ c ∈ cols, c.views ≠ []) :
    cursorInv cols (initState cols) := by
  refine ⟨rfl, le_refl 0, ?_, le_refl 0, ?_⟩
  · cases cols with
    | nil => exact absurd rfl hne
    | cons a l =>
      simp only [initState, List.length_cons]
      push_cast
      omega
  · cases cols with
    | nil => exact absurd rfl hne
    | cons a l =>
      have hvne : a.views ≠ [] := hrows a (List.mem_cons_self a l)
      have hge : 1 ≤ a.views.length := by
        cases hav : a.views with
        | nil => exact absurd hav hvne
        | cons x xs => simp
      have hle : a.views.length ≤ maxRowLen (a :: l) :=
        views_le_maxRowLen (List.mem_cons_self a l)
      simp only [initState]
      omega

theorem hk_noop_replicate {s : CState} {k : Key}
    (h : handleKeyDown s k = (s, [])) (n : Nat) :
    runKeys s (List.replicate n k) = (s, []) := by
  induction n with
  | zero => rfl
  | succ m ih =>
    show runKeys s (k :: List.replicate m k) = (s, [])
    unfold runKeys
    rw [h]
    simp [ih]

/-! ## Claims -/

/-- C1 (amended): for a nonempty catalog whose collections are all
nonempty, after any sequence of inputs the cursor satisfies
`0 ≤ rowIndex < collections.length` and
`0 ≤ columnIndex < maxRowLen collections`; the column index is NOT in
general below the current row's item count (see the counterexample). -/
theorem c1_cursor_bounds_amended (cols : List Collection) (ks : List Key)
    (hne : cols ≠ []) (hrows : ∀ c ∈ cols, c.views ≠ []) :
    0 ≤ (runKeys (initState cols) ks).1.selectedRowIndex ∧
    (runKeys (initState cols) ks).1.selectedRowIndex < (cols.length : Int) ∧
    0 ≤ (runKeys (initState cols) ks).1.selectedColumnIndex ∧
    (runKeys (initState cols) ks).1.selectedColumnIndex <
      (maxRowLen cols : Int) := by
  have h := cursorInv_runKeys ks hne hrows (cursorInv_init hne hrows)
  exact ⟨h.2.1, h.2.2.1, h.2.2.2.1, h.2.2.2.2⟩

/-- C1 witness: the bounds at a concrete catalog and input list. -/
theorem c1_cursor_bounds_amended_witness :
    0 ≤ (runKeys (initState cols2) [Key.down]).1.selectedRowIndex ∧
    (runKeys (initState cols2) [Key.down]).1.selectedRowIndex <
      (cols2.length : Int) ∧
    0 ≤ (runKeys (initState cols2) [Key.down]).1.selectedColumnIndex ∧
    (runKeys (initState cols2) [Key.down]).1.selectedColumnIndex <
      (maxRowLen cols2 : Int) :=
  c1_cursor_bounds_amended cols2 [Key.down] (by decide) (by decide)

/-- C1 counterexample: on the catalog with row sizes 3 and 1, the input
sequence Right, Down leaves the cursor at `(1,1)` while row 1 has a
single item, so `columnIndex < collections[rowIndex].items.length`
fails after a directional input sequence. -/
theorem c1_cursor_bounds_counterexample :
    ¬ ((runKeys (initState cols2) [Key.right, Key.down]).1.selectedColumnIndex <
        getTilesLength (runKeys (initState cols2) [Key.right, Key.down]).1
          (runKeys (initState cols2) [Key.right, Key.down]).1.selectedRowIndex) := by
  decide

/-- C2: while the overlay is open, Up/Down/Left/Right and Activate are
suppressed — the state (cursor included) is unchanged and no effect is
emitted; Escape is processed and closes the overlay without touching
the cursor or the selected record. -/
theorem c2_overlay_gating (s : CState) (k : Key) (h : s.modalOpen = true) :
    (k ≠ Key.escape → handleKeyDown s k = (s, [])) ∧
    (handleKeyDown s Key.escape).1.selectedRowIndex = s.selectedRowIndex ∧
    (handleKeyDown s Key.escape).1.selectedColumnIndex =
      s.selectedColumnIndex ∧
    (handleKeyDown s Key.escape).1.selectedTile = s.selectedTile ∧
    (handleKeyDown s Key.escape).1.modalOpen = false := by
  refine ⟨fun hk => ?_, ?_, ?_, ?_, ?_⟩ <;> simp [handleKeyDown, h]
  intro hk2
  exact absurd hk2 hk

/-- C2 witness: gating at a concrete open-overlay state. -/
theorem c2_overlay_gating_witness :
    openSt.modalOpen = true ∧
    handleKeyDown openSt Key.right = (openSt, []) ∧
    (handleKeyDown openSt Key.escape).1.modalOpen = false :=
  ⟨rfl, (c2_overlay_gating openSt Key.right rfl).1 (by decide),
    (c2_overlay_gating openSt Key.right rfl).2.2.2.2⟩

/-- C3: with the overlay closed, Up computes
`max(0, rowIndex - 1)` and Down `min(rowIndex + 1, lastRowIndex)`, both
leaving the column index untouched (even when the target row is
shorter); Left computes `max(0, columnIndex - 1)` and Right
`min(columnIndex + 1, lastColumnIndexOfCurrentRow)`, both leaving the
row index untouched; and on the catalog with row sizes 3 and 1 the
sequence Down, Right, Up passes through `(1,0)`, `(1,0)`, `(0,0)`. -/
theorem c3_directional_semantics (s : CState) (h : s.modalOpen = false) :
    ((handleKeyDown s Key.up).1.selectedRowIndex =
        max 0 (s.selectedRowIndex - 1) ∧
      (handleKeyDown s Key.up).1.selectedColumnIndex =
        s.selectedColumnIndex) ∧
    ((handleKeyDown s Key.down).1.selectedRowIndex =
        min (s.selectedRowIndex + 1) (getCollectionLength s - 1) ∧
      (handleKeyDown s Key.down).1.selectedColumnIndex =
        s.selectedColumnIndex) ∧
    ((handleKeyDown s Key.left).1.selectedColumnIndex =
        max 0 (s.selectedColumnIndex - 1) ∧
      (handleKeyDown s Key.left).1.selectedRowIndex = s.selectedRowIndex) ∧
    ((handleKeyDown s Key.right).1.selectedColumnIndex =
        min (s.selectedColumnIndex + 1)
          (getTilesLength s s.selectedRowIndex - 1) ∧
      (handleKeyDown s Key.right).1.selectedRowIndex =
        s.selectedRowIndex) ∧
    ((runKeys (initState cols2) [Key.down]).1.selectedRowIndex = 1 ∧
      (runKeys (initState cols2) [Key.down]).1.selectedColumnIndex = 0 ∧
      (runKeys (initState cols2)
        [Key.down, Key.right]).1.selectedRowIndex = 1 ∧
      (runKeys (initState cols2)
        [Key.down, Key.right]).1.selectedColumnIndex = 0 ∧
      (runKeys (initState cols2)
        [Key.down, Key.right, Key.up]).1.selectedRowIndex = 0 ∧
      (runKeys (initState cols2)
        [Key.down, Key.right, Key.up]).1.selectedColumnIndex = 0) := by
  refine ⟨⟨?_, ?_⟩, ⟨?_, ?_⟩, ⟨?_, ?_⟩, ⟨?_, ?_⟩, by decide⟩
  · rw [hk_up s h, usr_row]
  · rw [hk_up s h]; exact (usr_fields _ _).1
  · rw [hk_down s h, usr_row]
  · rw [hk_down s h]; exact (usr_fields _ _).1
  · rw [hk_left s h, usc_col]
  · rw [hk_left s h]; exact (usc_fields _ _).1
  · rw [hk_right s h, usc_col]
  · rw [hk_right s h]; exact (usc_fields _ _).1

/-- C3 witness: Down from the initial scenario state clamps into the
last row. -/
theorem c3_directional_semantics_witness :
    (initState cols2).modalOpen = false ∧
    (handleKeyDown (initState cols2) Key.down).1.selectedRowIndex =
      min ((initState cols2).selectedRowIndex + 1)
        (getCollectionLength (initState cols2) - 1) :=
  ⟨rfl, (c3_directional_semantics (initState cols2) rfl).2.1.1⟩

/-- C4: with the overlay closed, whenever a directional transition's
computed target index equals the current index, any number of
repetitions of that input leaves the state unchanged and emits no
observable effect (no tile attribute write, no scroll, no render). -/
theorem c4_boundary_noop (s : CState) (n : Nat) (h : s.modalOpen = false) :
    (max 0 (s.selectedRowIndex - 1) = s.selectedRowIndex →
      runKeys s (List.replicate n Key.up) = (s, [])) ∧
    (min (s.selectedRowIndex + 1) (getCollectionLength s - 1) =
        s.selectedRowIndex →
      runKeys s (List.replicate n Key.down) = (s, [])) ∧
    (max 0 (s.selectedColumnIndex - 1) = s.selectedColumnIndex →
      runKeys s (List.replicate n Key.left) = (s, [])) ∧
    (min (s.selectedColumnIndex + 1)
        (getTilesLength s s.selectedRowIndex - 1) = s.selectedColumnIndex →
      runKeys s (List.replicate n Key.right) = (s, [])) := by
  refine ⟨fun ht => ?_, fun ht => ?_, fun ht => ?_, fun ht => ?_⟩
  · refine hk_noop_replicate ?_ n
    rw [hk_up s h]
    unfold updateSelectedRow
    rw [if_pos ht]
  · refine hk_noop_replicate ?_ n
    rw [hk_down s h]
    unfold updateSelectedRow
    rw [if_pos ht]
  · refine hk_noop_replicate ?_ n
    rw [hk_left s h]
    unfold updateSelectedColumn
    rw [if_pos ht]
  · refine hk_noop_replicate ?_ n
    rw [hk_right s h]
    unfold updateSelectedColumn
    rw [if_pos ht]

/-- C4 witness: pressing Left five times at column 0 of the scenario
catalog changes nothing and emits nothing. -/
theorem c4_boundary_noop_witness :
    (initState cols2).modalOpen = false ∧
    max 0 ((initState cols2).selectedColumnIndex - 1) =
      (initState cols2).selectedColumnIndex ∧
    runKeys (initState cols2) (List.replicate 5 Key.left) =
      (initState cols2, []) :=
  ⟨rfl, by decide,
    (c4_boundary_noop (initState cols2) 5 rfl).2.2.1 (by decide)⟩

/-- C5: the layout toggle flips only `isHorizontal` and emits exactly
one full grid re-render; cursor, selected record, overlay state and
collection data are untouched, and the item designated as selected
keeps the same identity (same id) across the toggle. -/
theorem c5_layout_toggle_frame (s : CState) :
    (toggleHandler s).1.selectedRowIndex = s.selectedRowIndex ∧
    (toggleHandler s).1.selectedColumnIndex = s.selectedColumnIndex ∧
    (toggleHandler s).1.selectedTile = s.selectedTile ∧
    (toggleHandler s).1.modalOpen = s.modalOpen ∧
    (toggleHandler s).1.collections = s.collections ∧
    (toggleHandler s).1.isHorizontal = !s.isHorizontal ∧
    (toggleHandler s).2 = [Effect.fullRender] ∧
    selectedItem (toggleHandler s).1 = selectedItem s ∧
    (selectedItem (toggleHandler s).1).map View.id =
      (selectedItem s).map View.id := by
  refine ⟨rfl, rfl, rfl, rfl, rfl, rfl, rfl, ?_, ?_⟩ <;>
    simp [toggleHandler, selectedItem]

theorem transform_none_iff (probe : String → Bool) (d : RawData) :
    transformDataToView probe d = none ↔ rawDefective probe d = true := by
  obtain ⟨did, vis, meta⟩ := d
  cases vis with
  | none =>
    simp [transformDataToView, transformBody, rawDefective, hPath]
  | some v =>
    obtain ⟨art, pb, atx, bd, hl⟩ := v
    cases art with
    | none =>
      simp [transformDataToView, transformBody, rawDefective, hPath]
    | some a =>
      obtain ⟨ht, vt⟩ := a
      cases ht with
      | none =>
        simp [transformDataToView, transformBody, rawDefective, hPath]
      | some htile =>
        cases htile with
        | mk hti =>
          cases hti with
          | none =>
            simp [transformDataToView, transformBody, rawDefective, hPath]
          | some himage =>
            cases vt with
            | none =>
              simp [transformDataToView, transformBody, rawDefective,
                hPath, vPath, validateImage]
            | some vtile =>
              cases vtile with
              | mk vti =>
                cases vti with
                | none =>
                  simp [transformDataToView, transformBody, rawDefective,
                    hPath, vPath, validateImage]
                | some vimage =>
                  cases hpr : probe
                      (constructImageUrl himage.path "800" "600" "jpeg") <;>
                    cases vpr : probe
                      (constructImageUrl vimage.path "600" "800" "jpeg") <;>
                    cases meta with
                    | none =>
                      simp [transformDataToView, transformBody,
                        rawDefective, hPath, vPath, ratingCode,
                        validateImage, hProbeUrl, vProbeUrl, hpr, vpr]
                    | some m =>
                      cases hmr : m.rating <;>
                        simp [transformDataToView, transformBody,
                          rawDefective, hPath, vPath, ratingCode,
                          validateImage, hProbeUrl, vProbeUrl, hpr, vpr,
                          hmr]

theorem transform_some_images (probe : String → Bool) (d : RawData)
    (v : View) (h : transformDataToView probe d = some v) :
    probe v.horizontalImage = true ∧ probe v.verticalImage = true := by
  obtain ⟨did, vis, meta⟩ := d
  cases vis with
  | none => simp [transformDataToView, transformBody] at h
  | some vv =>
    obtain ⟨art, pb, atx, bd, hl⟩ := vv
    cases art with
    | none => simp [transformDataToView, transformBody] at h
    | some a =>
      obtain ⟨ht, vt⟩ := a
      cases ht with
      | none => simp [transformDataToView, transformBody] at h
      | some htile =>
        cases htile with
        | mk hti =>
          cases hti with
          | none => simp [transformDataToView, transformBody] at h
          | some himage =>
            cases vt with
            | none =>
              simp [transformDataToView, transformBody, validateImage] at h
            | some vtile =>
              cases vtile with
              | mk vti =>
                cases vti with
                | none =>
                  simp [transformDataToView, transformBody,
                    validateImage] at h
                | some vimage =>
                  cases hpr : probe
                      (constructImageUrl himage.path "800" "600" "jpeg") <;>
                    cases vpr : probe
                      (constructImageUrl vimage.path "600" "800" "jpeg")
                  · simp [transformDataToView, transformBody,
                      validateImage, hpr, vpr] at h
                  · simp [transformDataToView, transformBody,
                      validateImage, hpr, vpr] at h
                  · simp [transformDataToView, transformBody,
                      validateImage, hpr, vpr] at h
                  · cases meta with
                    | none =>
                      simp [transformDataToView, transformBody,
                        validateImage, hpr, vpr] at h
                    | some m =>
                      cases hmr : m.rating with
                      | none =>
                        simp [transformDataToView, transformBody,
                          validateImage, hpr, vpr, hmr] at h
                      | some r =>
                        simp [transformDataToView, transformBody,
                          validateImage, hpr, vpr, hmr] at h
                        rw [← h]
                        exact ⟨hpr, vpr⟩

/-- C6: the normalizer returns `none` exactly on defective raw items
(a missing field on a dereference chain — the caught exception — or a
failed image probe), never propagating an error (it is total); when it
returns an item both image URLs passed their probe, and consequently
every view that `getViews` puts into a collection has both images
resolved. -/
theorem c6_normalization_filtering (probe : String → Bool) (d : RawData)
    (items : List RawData) :
    (transformDataToView probe d = none ↔ rawDefective probe d = true) ∧
    (∀ v : View, transformDataToView probe d = some v →
      probe v.horizontalImage = true ∧ probe v.verticalImage = true) ∧
    (∀ v ∈ getViewsItems probe items,
      probe v.horizontalImage = true ∧ probe v.verticalImage = true) := by
  refine ⟨transform_none_iff probe d,
    fun v hv => transform_some_images probe d v hv, fun v hv => ?_⟩
  unfold getViewsItems at hv
  rw [List.mem_filterMap] at hv
  obtain ⟨o, ho, hoo⟩ := hv
  rw [List.mem_map] at ho
  obtain ⟨d2, hd2, rfl⟩ := ho
  exact transform_some_images probe d2 v hoo

/-- C6 witness: a fully populated raw record normalizes to a view whose
image URLs both pass the probe. -/
theorem c6_normalization_filtering_witness :
    transformDataToView probeAll goodRaw = some goodView ∧
    probeAll goodView.horizontalImage = true ∧
    probeAll goodView.verticalImage = true := by
  have h := (c6_normalization_filtering probeAll goodRaw [goodRaw]).2.1
    goodView (by decide)
  exact ⟨by decide, h.1, h.2⟩

theorem fetchCollections_failed
    {resp : Except Unit (FetchResponse (List RawCollection))}
    (h : fetchFailed resp = true) : fetchCollections resp = [] := by
  cases resp with
  | error e => rfl
  | ok r =>
    unfold fetchFailed at h
    simp at h
    simp [fetchCollections, h]

theorem getViews_failed {resp : Except Unit (FetchResponse (List RawData))}
    {probe : String → Bool}
    (h : fetchFailed resp = true) : getViews resp probe = [] := by
  cases resp with
  | error e => rfl
  | ok r =>
    unfold fetchFailed at h
    simp at h
    simp [getViews, h]

/-- C7: transport failure (rejected fetch or non-success status) makes
`fetchCollections`/`getCollections` and `getViews` return an empty list
instead of propagating (both are total functions of the response); and
a failed per-collection item fetch leaves that collection present in
`fetchData`'s output — same position, id and title — with an empty
view list. -/
theorem c7_soft_fail_transport
    (respC : Except Unit (FetchResponse (List RawCollection)))
    (respV : Except Unit (FetchResponse (List RawData)))
    (collResp : Except Unit (FetchResponse (List RawCollection)))
    (itemResp : String → Except Unit (FetchResponse (List RawData)))
    (probe : String → Bool) :
    (fetchFailed respC = true →
      fetchCollections respC = [] ∧ getCollections respC = []) ∧
    (fetchFailed respV = true → getViews respV probe = []) ∧
    (fetchData collResp itemResp probe).length =
      (getCollections collResp).length ∧
    (∀ (i : Nat) (c : Collection),
      (getCollections collResp).get? i = some c →
      ∃ c2, (fetchData collResp itemResp probe).get? i = some c2 ∧
        c2.id = c.id ∧ c2.title = c.title ∧
        (fetchFailed (itemResp c.href) = true → c2.views = [])) := by
  refine ⟨fun h => ⟨fetchCollections_failed h, ?_⟩,
    fun h => getViews_failed h, ?_, fun i c hc => ?_⟩
  · unfold getCollections
    rw [fetchCollections_failed h]
    rfl
  · unfold fetchData
    exact List.length_map _ _
  · unfold fetchData
    rw [List.get?_map, hc]
    exact ⟨_, rfl, rfl, rfl, fun hf => getViews_failed hf⟩

/-- C7 witness: an HTTP 500 collection response and a rejected item
fetch both yield empty results, and the collection whose item fetch
failed is still present with no views. -/
theorem c7_soft_fail_transport_witness :
    fetchCollections resp500C = [] ∧
    getViews respErrV probeAll = [] ∧
    (∃ c2, (fetchData okCollResp itemRespFail probeAll).get? 0 = some c2 ∧
      c2.id = skel0.id ∧ c2.views = []) := by
  have h := c7_soft_fail_transport resp500C respErrV okCollResp
    itemRespFail probeAll
  refine ⟨(h.1 (by decide)).1, h.2.1 (by decide), ?_⟩
  obtain ⟨c2, h1, h2, h3, h4⟩ := h.2.2.2 0 skel0 (by decide)
  exact ⟨c2, h1, h2, h4 (by decide)⟩

/-- C9: a row move whose target position holds no tile (the preserved
column index is beyond the target row's item count) still updates
`selectedRowIndex` but leaves `state.selectedTile` at its previous
record; the overlay opened by Activate then binds that stale record,
which is not the (nonexistent) item at the current cursor. -/
theorem c9_stale_selected_tile (s : CState) (newIndex : Int) (v : View)
    (hmodal : s.modalOpen = false)
    (hsync : s.selectedTile = some v)
    (hcur : selectedItem s = some v)
    (hne : newIndex ≠ s.selectedRowIndex)
    (hmiss : listGetI (viewsAt s newIndex) s.selectedColumnIndex = none) :
    (updateSelectedRow s newIndex).1.selectedRowIndex = newIndex ∧
    (updateSelectedRow s newIndex).1.selectedTile = s.selectedTile ∧
    selectedItem (updateSelectedRow s newIndex).1 = none ∧
    (handleKeyDown (updateSelectedRow s newIndex).1 Key.enter).1.modalBound
      = s.selectedTile ∧
    (handleKeyDown (updateSelectedRow s newIndex).1 Key.enter).1.modalBound
      ≠ selectedItem
          (handleKeyDown (updateSelectedRow s newIndex).1 Key.enter).1 := by
  unfold selectedItem at hcur
  obtain ⟨c, hc, hcv⟩ := Option.bind_eq_some.mp hcur
  have hd : updateSelectedTile s s.selectedColumnIndex s.selectedRowIndex
      false =
      ({ s with selectedTile := some v },
        [Effect.setTileSelected s.selectedRowIndex s.selectedColumnIndex
          false]) := by
    unfold updateSelectedTile
    rw [viewsAt_row rfl hc, hcv]
  have hva : viewsAt { s with selectedTile := some v } newIndex =
      viewsAt s newIndex := rfl
  have hsel : updateSelectedTile { s with selectedTile := some v }
      s.selectedColumnIndex newIndex true =
      ({ s with selectedTile := some v }, []) := by
    unfold updateSelectedTile
    rw [hva, hmiss]
  have hrow : updateSelectedRow s newIndex =
      ({ s with selectedTile := some v, selectedRowIndex := newIndex },
        [Effect.setTileSelected s.selectedRowIndex s.selectedColumnIndex
          false]) := by
    unfold updateSelectedRow
    rw [if_neg hne]
    simp only [hd, hsel, List.append_nil]
  have hnone : (listGetI s.collections newIndex).bind
      (fun c2 => listGetI c2.views s.selectedColumnIndex) = none := by
    rcases h2 : listGetI s.collections newIndex with _ | c2
    · rfl
    · have hv2 : viewsAt s newIndex = c2.views := viewsAt_row rfl h2
      rw [hv2] at hmiss
      simp [hmiss]
  refine ⟨by rw [hrow], ?_, ?_, ?_, ?_⟩
  · rw [hrow]
    exact hsync.symm
  · rw [hrow]
    unfold selectedItem
    exact hnone
  · rw [hrow]
    simp [handleKeyDown, hmodal]
    exact hsync.symm
  · rw [hrow]
    simp [handleKeyDown, hmodal, selectedItem, hnone]

/-- C9 witness: from cursor `(0,2)` on the catalog with row sizes 3 and
1, moving to row 1 keeps the stale third view of row 0 as the bound
record, and Activate binds it to the overlay. -/
theorem c9_stale_selected_tile_witness :
    atCol2.selectedTile = some (mkView "c" []) ∧
    (updateSelectedRow atCol2 1).1.selectedRowIndex = 1 ∧
    (updateSelectedRow atCol2 1).1.selectedTile = atCol2.selectedTile ∧
    selectedItem (updateSelectedRow atCol2 1).1 = none ∧
    (handleKeyDown (updateSelectedRow atCol2 1).1 Key.enter).1.modalBound
      = atCol2.selectedTile := by
  have h := c9_stale_selected_tile atCol2 1 (mkView "c" []) (by decide)
    (by decide) (by decide) (by decide) (by decide)
  exact ⟨by decide, h.1, h.2.1, h.2.2.1, h.2.2.2.1⟩

/-- C10: the tile shows the join of the first `min(2, genre.length)`
genres with separator `" ● "`, the overlay joins the full genre list
with the same separator, and an item with three or more genres has a
strictly shorter genre string on the tile than in the overlay. -/
theorem c10_genre_truncation (v : View) :
    tileGenreSummary v =
      joinSep " ● " (v.genre.take (min 2 v.genre.length)) ∧
    modalGenreSummary v = joinSep " ● " v.genre ∧
    (3 ≤ v.genre.length →
      (tileGenreSummary v).length < (modalGenreSummary v).length) := by
  refine ⟨?_, rfl, fun h3 => ?_⟩
  · unfold tileGenreSummary
    congr 1
    rw [List.take_eq_take]
    omega
  · rcases hg : v.genre with _ | ⟨a, _ | ⟨b, _ | ⟨c, xs⟩⟩⟩
    · rw [hg] at h3; simp at h3
    · rw [hg] at h3; simp at h3
    · rw [hg] at h3; simp at h3
    · unfold tileGenreSummary modalGenreSummary
      rw [hg]
      have hsep : (" ● " : String).length = 3 := rfl
      simp [joinSep, String.length_append, List.take, hsep]
      omega

/-- C10 witness: a three-genre item has a strictly shorter tile genre
string. -/
theorem c10_genre_truncation_witness :
    3 ≤ (mkView "g" ["x", "y", "z"]).genre.length ∧
    (tileGenreSummary (mkView "g" ["x", "y", "z"])).length <
      (modalGenreSummary (mkView "g" ["x", "y", "z"])).length :=
  ⟨by decide,
    (c10_genre_truncation (mkView "g" ["x", "y", "z"])).2.2 (by decide)⟩

end HuluSpec
